import Mathlib

/-!
Verification development for the Wazuh engine-server endpoint subsystem
(`EventEndpoint`, the Unix datagram socket endpoint built on the uvw reactor).

The repository excerpt contains only the `EventEndpoint` class declaration
(`src/unnamed/part_000`, i.e. `eventEndpoint.hpp`) and a test-wrapper header for
the global agent registry (`wdb_global_wrappers.h`).  The bodies of
`EventEndpoint::configure`, `EventEndpoint::run`, `EventEndpoint::close`, the
read/parse/dispatch callback, and the `BaseEndpoint` contract are not part of
the excerpt, so the behavioural definitions below are modelled from the
specification's words and each such definition says so in its doc comment.
-/

namespace EngineServer

/-- Lifecycle states of an endpoint.
Modelled from the spec: the lifecycle state machine
`Created → Configured → Running → Closing → Closed` plus the absorbing `Failed`
state; the state field of `EventEndpoint` is not visible in the excerpted
header. -/
inductive LifecycleState where
  | Created
  | Configured
  | Running
  | Closing
  | Closed
  | Failed
deriving DecidableEq, Repr

/-- A filesystem entry at a path: either a Unix domain socket file or an
ordinary regular file.  Only these two kinds are distinguished by the spec's
path-collision rules. -/
inductive FsEntry where
  | socketFile
  | regularFile
deriving DecidableEq, Repr

/-- The filesystem, restricted to what the endpoint subsystem observes:
a finite association of paths to entries. -/
abbrev FileSystem := List (String × FsEntry)

/-- Look up the entry at a path. -/
def FileSystem.entryAt (fs : FileSystem) (p : String) : Option FsEntry :=
  match fs with
  | [] => none
  | (q, e) :: rest => if q = p then some e else FileSystem.entryAt rest p

/-- Remove every entry at the given path (the `unlink` system call; a no-op
when no entry exists). -/
def FileSystem.unlink (fs : FileSystem) (p : String) : FileSystem :=
  fs.filter (fun pe => pe.1 ≠ p)

/-- Create an entry at a path, replacing any previous entry there. -/
def FileSystem.create (fs : FileSystem) (p : String) (e : FsEntry) : FileSystem :=
  (p, e) :: FileSystem.unlink fs p

theorem FileSystem.entryAt_unlink (fs : FileSystem) (p : String) :
    (fs.unlink p).entryAt p = none := by
  induction fs with
  | nil => rfl
  | cons pe rest ih =>
      by_cases h : pe.1 = p
      · simpa [FileSystem.unlink, h] using ih
      · simpa [FileSystem.unlink, FileSystem.entryAt, h] using ih

theorem FileSystem.entryAt_create (fs : FileSystem) (p : String) (e : FsEntry) :
    (fs.create p e).entryAt p = some e := by
  simp [FileSystem.create, FileSystem.entryAt]

/-- Observable resource actions performed on OS resources by the endpoint,
recorded so that unlink-before-bind ordering and double-release can be
stated. -/
inductive ResourceAction where
  | closedFd (fd : Nat)
  | unlinkedPath (p : String)
  | boundSocket (p : String)
deriving DecidableEq, Repr

/-- The state of one endpoint.
Modelled from the spec: attributes of the Endpoint data model (bound socket
path, lifecycle state, reference to the Output Sink, overflow counter) together
with the `m_socketFd` member visible in the excerpted `eventEndpoint.hpp`.
The Output Sink reference is modelled as the identity (`sinkId`) of the
`ServerOutput` the constructor received. -/
structure Endpoint where
  path : String
  sinkId : Nat
  state : LifecycleState
  socketFd : Option Nat
  overflowCount : Nat
deriving DecidableEq, Repr

/-- The `EventEndpoint` constructor: binds the socket path and the
`ServerOutput` reference, with no OS socket yet.
Modelled from the spec: the constructor body is not in the excerpt; the header
declares `EventEndpoint(const std::string &path, ServerOutput &eventBuffer)`. -/
def Endpoint.mkNew (path : String) (sinkId : Nat) : Endpoint :=
  { path := path, sinkId := sinkId, state := .Created,
    socketFd := none, overflowCount := 0 }

/-- Configuration errors, per the spec's error taxonomy (bad path collision
with a non-socket file, permission denied, bind error) plus the lifecycle
violation of configuring from an illegal state. -/
inductive ConfigError where
  | wrongState
  | pathCollision
  | bindError
  | permissionDenied
deriving DecidableEq, Repr

/-- Environment facts `configure()` depends on: whether the process may bind at
the path and whether the OS bind call succeeds, and the fresh file descriptor
the OS would hand out. -/
structure BindEnv where
  permOk : Bool
  bindOk : Bool
  freshFd : Nat
deriving DecidableEq, Repr

/-- Result of a `configure()` call: the updated endpoint, the updated
filesystem, the resource actions performed in order, and the reported
outcome. -/
structure ConfigureResult where
  endpoint : Endpoint
  fs : FileSystem
  actions : List ResourceAction
  outcome : Except ConfigError Unit
deriving Repr

/-- Result of a `close()` call: the updated endpoint, the updated filesystem
and the resource actions performed in order.  `close()` itself never reports an
error. -/
structure CloseResult where
  endpoint : Endpoint
  fs : FileSystem
  actions : List ResourceAction
deriving DecidableEq, Repr

/-- The `configure()` operation.
Modelled from the spec: the body of `EventEndpoint::configure` is not in the
excerpt.  Per the spec it resolves the socket path resource (failing on a
collision with a non-socket file and leaving that file untouched), unlinks any
stale socket entry before binding, binds the OS socket, and transitions to
`Configured` on success or to `Failed` on a bind or permission error.  It is
legal from `Created`, and — so that `configure → close → configure` is
repeatable as the spec requires — also from `Closed`; from any other state it
is an error that changes nothing (calling it twice without an intervening
`close()` is an error, and `Failed` is absorbing). -/
def Endpoint.configure (ep : Endpoint) (env : BindEnv) (fs : FileSystem) :
    ConfigureResult :=
  if ep.state = .Created ∨ ep.state = .Closed then
    match fs.entryAt ep.path with
    | some .regularFile =>
        ⟨{ ep with state := .Failed }, fs, [], .error .pathCollision⟩
    | some .socketFile =>
        if env.permOk then
          if env.bindOk then
            ⟨{ ep with state := .Configured, socketFd := some env.freshFd },
              (fs.unlink ep.path).create ep.path .socketFile,
              [.unlinkedPath ep.path, .boundSocket ep.path], .ok ()⟩
          else
            ⟨{ ep with state := .Failed }, fs.unlink ep.path,
              [.unlinkedPath ep.path], .error .bindError⟩
        else
          ⟨{ ep with state := .Failed }, fs, [], .error .permissionDenied⟩
    | none =>
        if env.permOk then
          if env.bindOk then
            ⟨{ ep with state := .Configured, socketFd := some env.freshFd },
              fs.create ep.path .socketFile,
              [.boundSocket ep.path], .ok ()⟩
          else
            ⟨{ ep with state := .Failed }, fs, [], .error .bindError⟩
        else
          ⟨{ ep with state := .Failed }, fs, [], .error .permissionDenied⟩
  else
    ⟨ep, fs, [], .error .wrongState⟩

/-- The `close()` operation.
Modelled from the spec: the body of `EventEndpoint::close` is not in the
excerpt.  Per the spec it is callable from any non-`Closed` state, closes the
OS socket and unlinks the socket path resource when a live handle exists,
transitions to `Closed`, and is safe to call multiple times (subsequent calls
are no-ops). -/
def Endpoint.close (ep : Endpoint) (fs : FileSystem) : CloseResult :=
  if ep.state = .Closed then
    ⟨ep, fs, []⟩
  else
    match ep.socketFd with
    | some fd =>
        ⟨{ ep with state := .Closed, socketFd := none },
          fs.unlink ep.path, [.closedFd fd, .unlinkedPath ep.path]⟩
    | none =>
        ⟨{ ep with state := .Closed }, fs, []⟩

/-- The `run()` operation.
Modelled from the spec: the body of `EventEndpoint::run` is not in the excerpt.
Per the spec its precondition is state `Configured` (or already `Running`,
idempotent); it arms the read callback and transitions to `Running` without
blocking; from any other state it changes nothing. -/
def Endpoint.run (ep : Endpoint) : Endpoint :=
  if ep.state = .Configured ∨ ep.state = .Running then
    { ep with state := .Running }
  else
    ep

/-- One datagram as delivered by the OS: an opaque byte payload, the arrival
timestamp the reactor observed, and the OS truncation flag for oversized
datagrams. -/
structure Datagram where
  payload : List Nat
  arrivalTime : Nat
  truncated : Bool
deriving DecidableEq, Repr

/-- An in-flight event: raw payload bytes plus provenance (source endpoint
identity, arrival timestamp, sequence position within the datagram, truncation
flag).  Modelled from the spec's Event data model; the concrete event type of
the read callback is not in the excerpt. -/
structure Event where
  payload : List Nat
  sourcePath : String
  timestamp : Nat
  seqInDatagram : Nat
  truncated : Bool
deriving DecidableEq, Repr

/-- The parse step of the datagram endpoint's read callback.
Modelled from the spec: the callback body is not in the excerpt.  Per the spec
it validates a non-empty payload; if the payload packs multiple logical records
under the separator-delimited framing convention it splits it into one
candidate event per segment; otherwise the whole datagram is one event.  The
delimiter byte is a parameter because the spec leaves the exact convention
open.  Each produced event carries the datagram's arrival timestamp, the
endpoint's path as source identity, its segment index, and the OS truncation
flag. -/
def parseDatagram (delim : Nat) (srcPath : String) (d : Datagram) : List Event :=
  if d.payload = [] then
    []
  else
    (d.payload.splitOn delim).enum.map fun ie =>
      { payload := ie.2, sourcePath := srcPath, timestamp := d.arrivalTime,
        seqInDatagram := ie.1, truncated := d.truncated }

/-- The Output Sink, as observed by the endpoint: the list of events whose
ownership has transferred (in push order), and an oracle listing the outcome
of each successive push attempt (`true` = accepted, `false` = rejected-full).
The oracle stands in for the bounded queue shared with consumer threads, whose
internals are out of scope; an exhausted oracle reports full. -/
structure Sink where
  accepted : List Event
  responses : List Bool
deriving DecidableEq, Repr

/-- One push attempt: `push(event) -> accepted | rejected-full`, consuming one
oracle response. -/
def Sink.push (s : Sink) (e : Event) : Sink × Bool :=
  match s.responses with
  | [] => (s, false)
  | r :: rest =>
      if r then ({ accepted := s.accepted ++ [e], responses := rest }, true)
      else ({ s with responses := rest }, false)

/-- Bounded immediate retries within the callback: one initial push attempt
plus up to `budget` retries.  Modelled from the spec: "a bounded number of
immediate retries within the callback"; the concrete budget is not in the
excerpt, so it is a parameter. -/
def pushWithRetry (budget : Nat) (s : Sink) (e : Event) : Sink × Bool :=
  let p := s.push e
  if p.2 then p
  else
    match budget with
    | 0 => p
    | b + 1 => pushWithRetry b p.1 e

/-- Dispatch of one candidate event: push with bounded retries; if the sink is
still full, drop the event and increment the endpoint's overflow counter.
Modelled from the spec's backpressure policy; no error is returned to any
caller. -/
def dispatchEvent (budget : Nat) (ep : Endpoint) (s : Sink) (e : Event) :
    Endpoint × Sink :=
  match pushWithRetry budget s e with
  | (s1, true) => (ep, s1)
  | (s1, false) => ({ ep with overflowCount := ep.overflowCount + 1 }, s1)

/-- Dispatch a list of candidate events in order. -/
def dispatchEvents (budget : Nat) (ep : Endpoint) (s : Sink) (es : List Event) :
    Endpoint × Sink :=
  es.foldl (fun p e => dispatchEvent budget p.1 p.2 e) (ep, s)

/-- Handle one datagram inside the read callback: parse it into candidate
events and dispatch each to the Output Sink in order. -/
def processDatagram (delim budget : Nat) (ep : Endpoint) (s : Sink)
    (d : Datagram) : Endpoint × Sink :=
  dispatchEvents budget ep s (parseDatagram delim ep.path d)

/-- Handle the datagrams read from the socket, in arrival order. -/
def processDatagrams (delim budget : Nat) (ep : Endpoint) (s : Sink)
    (ds : List Datagram) : Endpoint × Sink :=
  ds.foldl (fun p d => processDatagram delim budget p.1 p.2 d) (ep, s)

/-- Outcome of one socket read inside the callback: a datagram, a transient
would-block condition, or a persistent socket error. -/
inductive ReadResult where
  | data (d : Datagram)
  | wouldBlock
  | fatalError
deriving DecidableEq, Repr

/-- One readiness-callback step of the datagram endpoint.
Modelled from the spec: the callback body is not in the excerpt.  A datagram is
parsed and dispatched; a would-block condition is fully recovered locally; a
persistent socket error triggers an automatic `close()` and a transition to the
absorbing `Failed` state (surfaced as a state change, not a crash). -/
def handleRead (delim budget : Nat) (ep : Endpoint) (s : Sink)
    (fs : FileSystem) : ReadResult → Endpoint × Sink × FileSystem
  | .data d =>
      let p := processDatagram delim budget ep s d
      (p.1, p.2, fs)
  | .wouldBlock => (ep, s, fs)
  | .fatalError =>
      let c := ep.close fs
      ({ c.endpoint with state := .Failed }, s, c.fs)

/-- One record of the global agent registry, with the synchronization-status
bookkeeping.  Field names follow the `__wrap_wdb_global_*` signatures in
`wdb_global_wrappers.h`. -/
structure AgentRecord where
  id : Nat
  name : String
  ip : String
  registerIp : String
  internalKey : String
  agentGroup : String
  dateAdd : Nat
  syncStatus : Nat
deriving DecidableEq, Repr

/-- The persistent agent-state storage: the global agent registry. -/
abbrev AgentRegistry := List AgentRecord

/-- Insert an agent into the global registry.
Modelled from the spec: the body of `wdb_global_insert_agent` is not in the
excerpt (only its test-wrapper declaration is); it exists here to show the
registry is a mutable store that endpoint operations leave untouched. -/
def wdbGlobalInsertAgent (reg : AgentRegistry) (id : Nat)
    (name ip registerIp internalKey agentGroup : String) (dateAdd : Nat) :
    AgentRegistry :=
  { id := id, name := name, ip := ip, registerIp := registerIp,
    internalKey := internalKey, agentGroup := agentGroup, dateAdd := dateAdd,
    syncStatus := 0 } :: reg

/-- Update an agent's name in the global registry.
Modelled from the spec: the body of `wdb_global_update_agent_name` is not in
the excerpt (only its test-wrapper declaration is). -/
def wdbGlobalUpdateAgentName (reg : AgentRegistry) (id : Nat) (name : String) :
    AgentRegistry :=
  reg.map fun a => if a.id = id then { a with name := name } else a

/-- The world visible to the endpoint subsystem: the persistent agent registry,
the filesystem, one endpoint, and the process's Output Sinks (indexed by
identity; the endpoint holds the index of the one `ServerOutput` bound at
construction). -/
structure World where
  registry : AgentRegistry
  fs : FileSystem
  endpoint : Endpoint
  sinks : List Sink
deriving DecidableEq, Repr

/-- The Output Sink the world's endpoint is bound to. -/
def World.boundSink (w : World) : Sink :=
  w.sinks.getD w.endpoint.sinkId ⟨[], []⟩

/-- The operations of the endpoint subsystem, as acting on the world:
construction, the three lifecycle operations, and one read-callback step. -/
inductive EndpointOp where
  | construct (path : String) (sinkId : Nat)
  | configure (env : BindEnv)
  | run
  | close
  | callback (delim budget : Nat) (r : ReadResult)
deriving DecidableEq, Repr

/-- Apply one endpoint-subsystem operation to the world.  The callback step
reads from and writes to only the sink the endpoint was bound to at
construction. -/
def applyEndpointOp (w : World) : EndpointOp → World
  | .construct p sid => { w with endpoint := Endpoint.mkNew p sid }
  | .configure env =>
      let r := w.endpoint.configure env w.fs
      { w with endpoint := r.endpoint, fs := r.fs }
  | .run => { w with endpoint := w.endpoint.run }
  | .close =>
      let r := w.endpoint.close w.fs
      { w with endpoint := r.endpoint, fs := r.fs }
  | .callback delim budget rr =>
      let t := handleRead delim budget w.endpoint w.boundSink w.fs rr
      { w with
        endpoint := t.fst
        fs := t.snd.snd
        sinks := w.sinks.set w.endpoint.sinkId t.snd.fst }

/-- The transport variants of the endpoint family. -/
inductive TransportKind where
  | datagram
  | stream
deriving DecidableEq, Repr

/-- The abstract Endpoint contract: each transport variant supplies a state
type together with the three lifecycle operations, a constructor, and
projections to the shared lifecycle state and bound path.
Modelled from the spec: `baseEndpoint.hpp` is not in the excerpt; the spec
describes the Endpoint abstract contract as polymorphic over transport
variants, each implementing `configure`, `run`, `close` against the shared
lifecycle state machine. -/
structure EndpointContract where
  State : Type
  stateOf : State → LifecycleState
  pathOf : State → String
  init : String → Nat → State
  configure : State → BindEnv → FileSystem →
    State × FileSystem × Except ConfigError Unit
  run : State → State
  close : State → FileSystem → State × FileSystem

/-- State of the stream (connection-oriented) endpoint variant: the shared
lifecycle core plus a connection table.
Modelled from the spec: only the datagram variant is excerpted; the spec says
variants are polymorphic over transport shape and each carries only the state
it needs (e.g. a stream connection table). -/
structure StreamEndpointState where
  core : Endpoint
  connections : List Nat
deriving DecidableEq, Repr

/-- The shared contract instantiated at each transport variant.
Modelled from the spec: each variant implements `configure`, `run`, `close`
against the shared lifecycle state machine; the stream variant additionally
drops its connection table on `close()`. -/
def contractOf : TransportKind → EndpointContract
  | .datagram =>
      { State := Endpoint
        stateOf := Endpoint.state
        pathOf := Endpoint.path
        init := Endpoint.mkNew
        configure := fun s env fs =>
          let r := s.configure env fs
          (r.endpoint, r.fs, r.outcome)
        run := Endpoint.run
        close := fun s fs =>
          let r := s.close fs
          (r.endpoint, r.fs) }
  | .stream =>
      { State := StreamEndpointState
        stateOf := fun s => s.core.state
        pathOf := fun s => s.core.path
        init := fun p sid => ⟨Endpoint.mkNew p sid, []⟩
        configure := fun s env fs =>
          let r := s.core.configure env fs
          (⟨r.endpoint, s.connections⟩, r.fs, r.outcome)
        run := fun s => ⟨s.core.run, s.connections⟩
        close := fun s fs =>
          let r := s.core.close fs
          (⟨r.endpoint, []⟩, r.fs) }

theorem close_state_closed (ep : Endpoint) (fs : FileSystem) :
    (ep.close fs).endpoint.state = .Closed := by
  unfold Endpoint.close
  by_cases h : ep.state = .Closed
  · simp [h]
  · cases ep.socketFd <;> simp [h]

theorem close_of_closed (ep : Endpoint) (fs : FileSystem)
    (h : ep.state = .Closed) : ep.close fs = ⟨ep, fs, []⟩ := by
  simp [Endpoint.close, h]

theorem close_sinkId (ep : Endpoint) (fs : FileSystem) :
    (ep.close fs).endpoint.sinkId = ep.sinkId := by
  unfold Endpoint.close
  by_cases h : ep.state = .Closed
  · simp [h]
  · cases ep.socketFd <;> simp [h]

theorem configure_ok (ep : Endpoint) (env : BindEnv) (fs : FileSystem)
    (hst : ep.state = .Created ∨ ep.state = .Closed)
    (hp : env.permOk = true) (hb : env.bindOk = true)
    (hf : fs.entryAt ep.path ≠ some .regularFile) :
    (ep.configure env fs).endpoint =
      { ep with state := .Configured, socketFd := some env.freshFd } ∧
    (ep.configure env fs).outcome = .ok () ∧
    (ep.configure env fs).fs.entryAt ep.path = some .socketFile := by
  unfold Endpoint.configure
  rcases h : fs.entryAt ep.path with _ | e
  · simp [hst, h, hp, hb, FileSystem.entryAt_create]
  · cases e
    · simp [hst, h, hp, hb, FileSystem.entryAt_create]
    · exact absurd h hf

/-- C4: `close()` is callable from any non-`Closed` state — it never reports an
error and is total — and on a `Created` (never configured) endpoint it is a
safe no-op: the filesystem is unchanged and no resource action (no socket
release, no unlink) is performed.  It is idempotent: a second `close()` leaves
the endpoint and filesystem exactly as they were and performs no resource
action, so the socket resource is never released twice. -/
theorem eventEndpoint_close_idempotent :
    (∀ (p : String) (sid : Nat) (fs : FileSystem),
      ((Endpoint.mkNew p sid).close fs).fs = fs ∧
      ((Endpoint.mkNew p sid).close fs).actions = [] ∧
      ((Endpoint.mkNew p sid).close fs).endpoint.state = .Closed) ∧
    (∀ (ep : Endpoint) (fs : FileSystem),
      (ep.close fs).endpoint.close (ep.close fs).fs =
        ⟨(ep.close fs).endpoint, (ep.close fs).fs, []⟩) := by
  constructor
  · intro p sid fs
    simp [Endpoint.mkNew, Endpoint.close]
  · intro ep fs
    exact close_of_closed _ _ (close_state_closed ep fs)

/-- C3: for every valid configuration input (permission and bind succeed and
the path does not collide with a regular file), `configure()` followed by
`close()` leaves no socket file on disk at the bound path, and the sequence
`configure() → close() → configure()` succeeds: the second `configure()`
rebinds the same path without error. -/
theorem eventEndpoint_configure_close_repeatable
    (p : String) (sid : Nat) (env env2 : BindEnv) (fs : FileSystem)
    (hp : env.permOk = true) (hb : env.bindOk = true)
    (hp2 : env2.permOk = true) (hb2 : env2.bindOk = true)
    (hf : fs.entryAt p ≠ some .regularFile) :
    ((Endpoint.mkNew p sid).configure env fs).outcome = .ok () ∧
    (((Endpoint.mkNew p sid).configure env fs).endpoint.close
        ((Endpoint.mkNew p sid).configure env fs).fs).fs.entryAt p = none ∧
    ((((Endpoint.mkNew p sid).configure env fs).endpoint.close
        ((Endpoint.mkNew p sid).configure env fs).fs).endpoint.configure env2
      (((Endpoint.mkNew p sid).configure env fs).endpoint.close
        ((Endpoint.mkNew p sid).configure env fs).fs).fs).outcome = .ok () ∧
    ((((Endpoint.mkNew p sid).configure env fs).endpoint.close
        ((Endpoint.mkNew p sid).configure env fs).fs).endpoint.configure env2
      (((Endpoint.mkNew p sid).configure env fs).endpoint.close
        ((Endpoint.mkNew p sid).configure env fs).fs).fs).endpoint.state
      = .Configured := by
  have hpath : (Endpoint.mkNew p sid).path = p := rfl
  obtain ⟨hep, hok, -⟩ :=
    configure_ok (Endpoint.mkNew p sid) env fs (Or.inl rfl) hp hb
      (by simpa [hpath] using hf)
  refine ⟨hok, ?_⟩
  set r := (Endpoint.mkNew p sid).configure env fs with hr
  have hcl : r.endpoint.close r.fs =
      ⟨{ r.endpoint with state := .Closed, socketFd := none },
        r.fs.unlink r.endpoint.path, [.closedFd env.freshFd,
          .unlinkedPath r.endpoint.path]⟩ := by
    rw [hep]
    simp [Endpoint.close, Endpoint.mkNew]
  have hnone : (r.endpoint.close r.fs).fs.entryAt p = none := by
    rw [hcl]
    have : r.endpoint.path = p := by rw [hep]; rfl
    simp only [this]
    exact FileSystem.entryAt_unlink _ _
  refine ⟨hnone, ?_⟩
  have hst2 : (r.endpoint.close r.fs).endpoint.state = .Closed :=
    close_state_closed _ _
  have hpath2 : (r.endpoint.close r.fs).endpoint.path = p := by
    rw [hcl, hep]; rfl
  obtain ⟨hep2, hok2, -⟩ :=
    configure_ok (r.endpoint.close r.fs).endpoint env2
      (r.endpoint.close r.fs).fs (Or.inr hst2) hp2 hb2
      (by rw [hpath2, hnone]; simp)
  exact ⟨hok2, by rw [hep2]⟩

/-- Witness for C3 at a concrete input: binding `/var/run/test.sock` on an
empty filesystem, closing, and binding again. -/
theorem eventEndpoint_configure_close_repeatable_witness :
    (((Endpoint.mkNew "/var/run/test.sock" 0).configure ⟨true, true, 7⟩
        []).endpoint.close
      ((Endpoint.mkNew "/var/run/test.sock" 0).configure ⟨true, true, 7⟩
        []).fs).fs.entryAt "/var/run/test.sock" = none :=
  (eventEndpoint_configure_close_repeatable "/var/run/test.sock" 0
    ⟨true, true, 7⟩ ⟨true, true, 8⟩ [] rfl rfl rfl rfl (by decide)).2.1

/-- C5: `configure()` drives the lifecycle state machine.  From `Created` it
succeeds and transitions to `Configured` when permission and bind succeed and
there is no path collision; on a bind or permission error (or collision) it
transitions to the absorbing `Failed` state and reports the error to the owning
process rather than crashing (the outcome is an `Except` value, fatal for this
endpoint only).  Calling `configure()` a second time without an intervening
`close()` — i.e. from `Configured` or `Running` — is an error that changes
nothing, and `Failed` is absorbing: neither `configure()` nor `run()` leaves
it.  (To honour the spec's repeatability requirement, `Closed` is also a legal
starting state for `configure()`; from every other non-`Created` state it is an
error.) -/
theorem eventEndpoint_configure_state_machine
    (ep : Endpoint) (env : BindEnv) (fs : FileSystem) :
    (ep.state = .Created → env.permOk = true → env.bindOk = true →
      fs.entryAt ep.path ≠ some .regularFile →
      (ep.configure env fs).outcome = .ok () ∧
      (ep.configure env fs).endpoint.state = .Configured) ∧
    (ep.state = .Created →
      (env.permOk = false ∨ env.bindOk = false ∨
        fs.entryAt ep.path = some .regularFile) →
      (ep.configure env fs).endpoint.state = .Failed ∧
      ∃ e, (ep.configure env fs).outcome = .error e) ∧
    ((ep.state = .Configured ∨ ep.state = .Running) →
      (ep.configure env fs).outcome = .error .wrongState ∧
      (ep.configure env fs).endpoint = ep ∧
      (ep.configure env fs).fs = fs) ∧
    (ep.state = .Failed →
      (ep.configure env fs).outcome = .error .wrongState ∧
      (ep.configure env fs).endpoint = ep ∧
      ep.run = ep) := by
  refine ⟨?_, ?_, ?_, ?_⟩
  · intro hst hp hb hf
    obtain ⟨hep, hok, -⟩ := configure_ok ep env fs (Or.inl hst) hp hb hf
    exact ⟨hok, by rw [hep]⟩
  · intro hst hbad
    rcases h : fs.entryAt ep.path with _ | e
    · rcases hbad with hpm | hbd | hreg
      · simp [Endpoint.configure, hst, h, hpm]
      · cases hpm : env.permOk <;>
          simp [Endpoint.configure, hst, h, hpm, hbd]
      · rw [h] at hreg; cases hreg
    · cases e
      · rcases hbad with hpm | hbd | hreg
        · simp [Endpoint.configure, hst, h, hpm]
        · cases hpm : env.permOk <;>
            simp [Endpoint.configure, hst, h, hpm, hbd]
        · rw [h] at hreg; cases hreg
      · simp [Endpoint.configure, hst, h]
  · intro hst
    rcases hst with h | h <;> simp [Endpoint.configure, h]
  · intro hst
    simp [Endpoint.configure, Endpoint.run, hst]

/-- Witness for C5 at concrete inputs: a fresh endpoint configured with a good
environment succeeds; with permission denied it fails into `Failed`. -/
theorem eventEndpoint_configure_state_machine_witness :
    (((Endpoint.mkNew "/a" 0).configure ⟨true, true, 7⟩ []).outcome = .ok () ∧
      ((Endpoint.mkNew "/a" 0).configure ⟨true, true, 7⟩
        []).endpoint.state = .Configured) ∧
    ((Endpoint.mkNew "/a" 0).configure ⟨false, true, 7⟩
        []).endpoint.state = .Failed :=
  ⟨(eventEndpoint_configure_state_machine (Endpoint.mkNew "/a" 0)
      ⟨true, true, 7⟩ []).1 rfl rfl rfl (by decide),
    ((eventEndpoint_configure_state_machine (Endpoint.mkNew "/a" 0)
      ⟨false, true, 7⟩ []).2.1 rfl (Or.inl rfl)).1⟩

/-- C6: when the bind path pre-exists as a stale socket, `configure()` first
unlinks it (the recorded resource actions are the unlink followed by the bind)
and then succeeds; when the bind path exists as a regular file, `configure()`
fails with the path-collision configuration error and leaves the filesystem —
in particular that file — untouched. -/
theorem eventEndpoint_configure_path_collision
    (p : String) (sid : Nat) (env : BindEnv) (fs : FileSystem)
    (hp : env.permOk = true) (hb : env.bindOk = true) :
    (fs.entryAt p = some .socketFile →
      ((Endpoint.mkNew p sid).configure env fs).outcome = .ok () ∧
      ((Endpoint.mkNew p sid).configure env fs).endpoint.state = .Configured ∧
      ((Endpoint.mkNew p sid).configure env fs).actions =
        [.unlinkedPath p, .boundSocket p] ∧
      ((Endpoint.mkNew p sid).configure env fs).fs.entryAt p =
        some .socketFile) ∧
    (fs.entryAt p = some .regularFile →
      ((Endpoint.mkNew p sid).configure env fs).outcome =
        .error .pathCollision ∧
      ((Endpoint.mkNew p sid).configure env fs).fs = fs ∧
      ((Endpoint.mkNew p sid).configure env fs).endpoint.state = .Failed) := by
  constructor <;> intro h <;>
    simp [Endpoint.configure, Endpoint.mkNew, h, hp, hb,
      FileSystem.entryAt_create]

/-- Witness for C6 at concrete inputs: a stale socket at `/a` is unlinked and
rebinding succeeds; a regular file at `/a` yields a path-collision error with
the filesystem unchanged. -/
theorem eventEndpoint_configure_path_collision_witness :
    (((Endpoint.mkNew "/a" 0).configure ⟨true, true, 7⟩
        [("/a", .socketFile)]).actions =
      [.unlinkedPath "/a", .boundSocket "/a"]) ∧
    ((Endpoint.mkNew "/a" 0).configure ⟨true, true, 7⟩
        [("/a", .regularFile)]).fs = [("/a", .regularFile)] :=
  ⟨((eventEndpoint_configure_path_collision "/a" 0 ⟨true, true, 7⟩
      [("/a", .socketFile)] rfl rfl).1 (by decide)).2.2.1,
    ((eventEndpoint_configure_path_collision "/a" 0 ⟨true, true, 7⟩
      [("/a", .regularFile)] rfl rfl).2 (by decide)).2.1⟩

theorem configure_sinkId (ep : Endpoint) (env : BindEnv) (fs : FileSystem) :
    (ep.configure env fs).endpoint.sinkId = ep.sinkId := by
  unfold Endpoint.configure
  by_cases hst : ep.state = .Created ∨ ep.state = .Closed
  · rcases h : fs.entryAt ep.path with _ | e
    · cases hpm : env.permOk <;> cases hbd : env.bindOk <;>
        simp [hst, h, hpm, hbd]
    · cases e <;> cases hpm : env.permOk <;> cases hbd : env.bindOk <;>
        simp [hst, h, hpm, hbd]
  · simp [hst]

theorem run_sinkId (ep : Endpoint) : ep.run.sinkId = ep.sinkId := by
  unfold Endpoint.run
  by_cases h : ep.state = .Configured ∨ ep.state = .Running <;> simp [h]

theorem dispatchEvent_sinkId (budget : Nat) (ep : Endpoint) (s : Sink)
    (e : Event) : (dispatchEvent budget ep s e).1.sinkId = ep.sinkId := by
  unfold dispatchEvent
  rcases h : pushWithRetry budget s e with ⟨s1, b⟩
  cases b <;> simp [h]

theorem dispatchEvents_sinkId (budget : Nat) (es : List Event) :
    ∀ (ep : Endpoint) (s : Sink),
      (dispatchEvents budget ep s es).1.sinkId = ep.sinkId := by
  induction es with
  | nil => intro ep s; rfl
  | cons e es ih =>
      intro ep s
      show (List.foldl _ (dispatchEvent budget ep s e) es).1.sinkId = _
      have : List.foldl (fun p e => dispatchEvent budget p.1 p.2 e)
          (dispatchEvent budget ep s e) es =
          dispatchEvents budget (dispatchEvent budget ep s e).1
            (dispatchEvent budget ep s e).2 es := rfl
      rw [this, ih]
      exact dispatchEvent_sinkId budget ep s e

theorem handleRead_sinkId (delim budget : Nat) (ep : Endpoint) (s : Sink)
    (fs : FileSystem) (rr : ReadResult) :
    (handleRead delim budget ep s fs rr).fst.sinkId = ep.sinkId := by
  cases rr with
  | data d => exact dispatchEvents_sinkId budget _ ep s
  | wouldBlock => rfl
  | fatalError =>
      show ({ (ep.close fs).endpoint with
        state := .Failed } : Endpoint).sinkId = ep.sinkId
      simpa using close_sinkId ep fs

/-- Whether an operation is the constructor. -/
def EndpointOp.isConstruct : EndpointOp → Bool
  | .construct _ _ => true
  | _ => false

/-- C9: no operation of the endpoint subsystem — construction, `configure()`,
`run()`, `close()`, or the read/parse/dispatch callback — reads or modifies the
persistent agent-state storage: the global agent registry (with its
synchronization-status records) is identical before and after every endpoint
operation. -/
theorem endpoint_ops_preserve_agent_registry (w : World) (op : EndpointOp) :
    (applyEndpointOp w op).registry = w.registry := by
  cases op <;> rfl

/-- The agent registry is genuinely mutable through its own operations, so the
frame property above is not vacuous. -/
theorem wdbGlobalInsertAgent_grows (reg : AgentRegistry) (id : Nat)
    (name ip registerIp internalKey agentGroup : String) (dateAdd : Nat) :
    (wdbGlobalInsertAgent reg id name ip registerIp internalKey agentGroup
      dateAdd).length = reg.length + 1 := rfl

/-- C10: the Output Sink an endpoint pushes into is fixed at construction time:
the constructor binds the `ServerOutput` identity it was passed, no public
operation (`configure()`, `run()`, `close()`, nor the read callback) rebinds
it, and the callback writes only to that one sink — every other sink in the
process is untouched by any endpoint operation. -/
theorem eventEndpoint_sink_fixed_at_construction :
    (∀ (p : String) (sid : Nat), (Endpoint.mkNew p sid).sinkId = sid) ∧
    (∀ (w : World) (op : EndpointOp), op.isConstruct = false →
      (applyEndpointOp w op).endpoint.sinkId = w.endpoint.sinkId ∧
      ∀ j, j ≠ w.endpoint.sinkId →
        (applyEndpointOp w op).sinks[j]? = w.sinks[j]?) := by
  refine ⟨fun p sid => rfl, ?_⟩
  intro w op hop
  cases op with
  | construct p sid => cases hop
  | configure env => exact ⟨configure_sinkId w.endpoint env w.fs, fun j _ => rfl⟩
  | run => exact ⟨run_sinkId w.endpoint, fun j _ => rfl⟩
  | close => exact ⟨close_sinkId w.endpoint w.fs, fun j _ => rfl⟩
  | callback delim budget rr =>
      refine ⟨handleRead_sinkId delim budget w.endpoint w.boundSink w.fs rr, ?_⟩
      intro j hj
      exact List.getElem?_set_ne (fun h => hj h.symm)

/-- Witness for C10 at a concrete input: `run()` on a constructed endpoint
leaves the bound-sink identity and the other sinks of the world unchanged. -/
theorem eventEndpoint_sink_fixed_at_construction_witness :
    (applyEndpointOp ⟨[], [], Endpoint.mkNew "/a" 0, [⟨[], []⟩, ⟨[], []⟩]⟩
        EndpointOp.run).endpoint.sinkId =
      (⟨[], [], Endpoint.mkNew "/a" 0,
        [⟨[], []⟩, ⟨[], []⟩]⟩ : World).endpoint.sinkId ∧
    (applyEndpointOp ⟨[], [], Endpoint.mkNew "/a" 0, [⟨[], []⟩, ⟨[], []⟩]⟩
        EndpointOp.run).sinks[1]? =
      (⟨[], [], Endpoint.mkNew "/a" 0,
        [⟨[], []⟩, ⟨[], []⟩]⟩ : World).sinks[1]? :=
  ⟨(eventEndpoint_sink_fixed_at_construction.2
      ⟨[], [], Endpoint.mkNew "/a" 0, [⟨[], []⟩, ⟨[], []⟩]⟩
      EndpointOp.run rfl).1,
    (eventEndpoint_sink_fixed_at_construction.2
      ⟨[], [], Endpoint.mkNew "/a" 0, [⟨[], []⟩, ⟨[], []⟩]⟩
      EndpointOp.run rfl).2 1 (by decide)⟩

/-- C8: every endpoint transport variant implements all three lifecycle
operations `configure()`, `run()` and `close()` against the shared abstract
Endpoint contract: for every variant, the contract's constructor starts in
`Created`, its `configure` drives `Created` to `Configured` with a success
outcome under a valid environment, its `run` drives `Configured` to `Running`,
and its `close` always reaches `Closed` — so each operation is invocable
polymorphically through the shared contract for every variant. -/
theorem endpoint_variants_implement_contract (k : TransportKind) :
    (∀ (p : String) (sid : Nat),
      (contractOf k).stateOf ((contractOf k).init p sid) = .Created) ∧
    (∀ (s : (contractOf k).State) (env : BindEnv) (fs : FileSystem),
      (contractOf k).stateOf s = .Created → env.permOk = true →
      env.bindOk = true →
      fs.entryAt ((contractOf k).pathOf s) ≠ some .regularFile →
      (contractOf k).stateOf ((contractOf k).configure s env fs).fst =
        .Configured ∧
      ((contractOf k).configure s env fs).snd.snd = .ok ()) ∧
    (∀ (s : (contractOf k).State),
      (contractOf k).stateOf s = .Configured →
      (contractOf k).stateOf ((contractOf k).run s) = .Running) ∧
    (∀ (s : (contractOf k).State) (fs : FileSystem),
      (contractOf k).stateOf ((contractOf k).close s fs).fst = .Closed) := by
  cases k with
  | datagram =>
      refine ⟨fun p sid => rfl, ?_, ?_, ?_⟩
      · intro s env fs hst hp hb hf
        obtain ⟨hep, hok, -⟩ :=
          configure_ok s env fs (Or.inl hst) hp hb hf
        constructor
        · show (Endpoint.configure s env fs).endpoint.state = _
          rw [hep]
        · exact hok
      · intro s hst
        have hst' : Endpoint.state s = .Configured := hst
        show (Endpoint.run s).state = _
        simp [Endpoint.run, hst']
      · intro s fs
        exact close_state_closed s fs
  | stream =>
      refine ⟨fun p sid => rfl, ?_, ?_, ?_⟩
      · intro s env fs hst hp hb hf
        obtain ⟨hep, hok, -⟩ :=
          configure_ok (StreamEndpointState.core s) env fs (Or.inl hst) hp hb hf
        constructor
        · show (Endpoint.configure (StreamEndpointState.core s) env
            fs).endpoint.state = _
          rw [hep]
        · exact hok
      · intro s hst
        have hst' : (StreamEndpointState.core s).state = .Configured := hst
        show (Endpoint.run (StreamEndpointState.core s)).state = _
        simp [Endpoint.run, hst']
      · intro s fs
        exact close_state_closed (StreamEndpointState.core s) fs

/-- Witness for C8 at concrete inputs: through the shared contract, the
datagram variant's `configure` reaches `Configured` on a fresh endpoint, and
the stream variant's `close` reaches `Closed`. -/
theorem endpoint_variants_implement_contract_witness :
    (contractOf .datagram).stateOf
      ((contractOf .datagram).configure (Endpoint.mkNew "/a" 0)
        ⟨true, true, 7⟩ []).fst = .Configured ∧
    (contractOf .stream).stateOf
      ((contractOf .stream).close ((contractOf .stream).init "/a" 0)
        []).fst = .Closed :=
  ⟨((endpoint_variants_implement_contract .datagram).2.1
      (Endpoint.mkNew "/a" 0) ⟨true, true, 7⟩ [] rfl rfl rfl (by decide)).1,
    (endpoint_variants_implement_contract .stream).2.2.2
      ((contractOf .stream).init "/a" 0) []⟩

theorem push_of_true (s : Sink) (e : Event) (rest : List Bool)
    (h : s.responses = true :: rest) :
    s.push e = ({ accepted := s.accepted ++ [e], responses := rest }, true) := by
  simp [Sink.push, h]

theorem push_of_false (s : Sink) (e : Event) (rest : List Bool)
    (h : s.responses = false :: rest) :
    s.push e = ({ s with responses := rest }, false) := by
  simp [Sink.push, h]

theorem pushWithRetry_of_true (budget : Nat) (s : Sink) (e : Event)
    (rest : List Bool) (h : s.responses = true :: rest) :
    pushWithRetry budget s e =
      ({ accepted := s.accepted ++ [e], responses := rest }, true) := by
  unfold pushWithRetry
  rw [push_of_true s e rest h]
  rfl

theorem pushWithRetry_succ_false (b : Nat) (s : Sink) (e : Event)
    (rest : List Bool) (h : s.responses = false :: rest) :
    pushWithRetry (b + 1) s e =
      pushWithRetry b { s with responses := rest } e := by
  conv_lhs => unfold pushWithRetry
  rw [push_of_false s e rest h]
  rfl

theorem pushWithRetry_zero_false (s : Sink) (e : Event)
    (rest : List Bool) (h : s.responses = false :: rest) :
    pushWithRetry 0 s e = ({ s with responses := rest }, false) := by
  unfold pushWithRetry
  rw [push_of_false s e rest h]
  rfl

theorem pushWithRetry_all_false (e : Event) (budget : Nat) :
    ∀ (s : Sink),
      (∀ r ∈ s.responses.take (budget + 1), r = false) →
      budget + 1 ≤ s.responses.length →
      pushWithRetry budget s e =
        ({ s with responses := s.responses.drop (budget + 1) }, false) := by
  induction budget with
  | zero =>
      intro s hall hlen
      rcases hres : s.responses with _ | ⟨r, rest⟩
      · rw [hres] at hlen; simp at hlen
      · have hr : r = false := hall r (by rw [hres]; simp)
        subst hr
        rw [pushWithRetry_zero_false s e rest hres]
        simp
  | succ b ih =>
      intro s hall hlen
      rcases hres : s.responses with _ | ⟨r, rest⟩
      · rw [hres] at hlen; simp at hlen
      · have hr : r = false := hall r (by rw [hres]; simp)
        subst hr
        rw [pushWithRetry_succ_false b s e rest hres]
        have hall' : ∀ x ∈ rest.take (b + 1), x = false := by
          intro x hx
          exact hall x (by rw [hres]; simpa [List.take_succ_cons]
            using List.mem_cons_of_mem _ hx)
        have hlen' : b + 1 ≤ rest.length := by
          rw [hres] at hlen; simpa using Nat.le_of_succ_le_succ hlen
        have := ih { s with responses := rest } hall' hlen'
        simp only at this
        rw [this]
        simp

/-- C2: when the Output Sink reports full for every attempt up to the bounded
retry budget (`budget` retries after the initial push, i.e. `budget + 1`
attempts), dispatching the event drops it — the sink's accepted events are
unchanged — and increments the observable overflow counter by exactly one,
changing nothing else about the endpoint (in particular no error state is
surfaced to any caller: the result is the ordinary endpoint/sink pair, not an
error).  The callback never blocks the reactor thread: the number of push
attempts is exactly `budget + 1`, witnessed by the sink consuming exactly
`budget + 1` oracle responses. -/
theorem eventEndpoint_overflow_accounting (budget : Nat) (ep : Endpoint)
    (s : Sink) (e : Event)
    (hall : ∀ r ∈ s.responses.take (budget + 1), r = false)
    (hlen : budget + 1 ≤ s.responses.length) :
    (dispatchEvent budget ep s e).1 =
      { ep with overflowCount := ep.overflowCount + 1 } ∧
    (dispatchEvent budget ep s e).2.accepted = s.accepted ∧
    (dispatchEvent budget ep s e).2.responses =
      s.responses.drop (budget + 1) := by
  have h := pushWithRetry_all_false e budget s hall hlen
  unfold dispatchEvent
  rw [h]
  exact ⟨rfl, rfl, rfl⟩

/-- Witness for C2 at a concrete input: a sink full for both attempts of a
one-retry budget drops the event and counts exactly one overflow. -/
theorem eventEndpoint_overflow_accounting_witness :
    (dispatchEvent 1 (Endpoint.mkNew "/a" 0) ⟨[], [false, false]⟩
        ⟨[9], "/a", 1, 0, false⟩).1 =
      { Endpoint.mkNew "/a" 0 with overflowCount := 1 } ∧
    (dispatchEvent 1 (Endpoint.mkNew "/a" 0) ⟨[], [false, false]⟩
        ⟨[9], "/a", 1, 0, false⟩).2.accepted = [] ∧
    (dispatchEvent 1 (Endpoint.mkNew "/a" 0) ⟨[], [false, false]⟩
        ⟨[9], "/a", 1, 0, false⟩).2.responses = [] :=
  eventEndpoint_overflow_accounting 1 (Endpoint.mkNew "/a" 0)
    ⟨[], [false, false]⟩ ⟨[9], "/a", 1, 0, false⟩ (by decide) (by decide)

theorem dispatchEvents_all_true (budget : Nat) (es : List Event) :
    ∀ (ep : Endpoint) (s : Sink),
      (∀ r ∈ s.responses, r = true) →
      es.length ≤ s.responses.length →
      dispatchEvents budget ep s es =
        (ep, { accepted := s.accepted ++ es,
               responses := s.responses.drop es.length }) := by
  induction es with
  | nil => intro ep s _ _; simp [dispatchEvents]
  | cons e es ih =>
      intro ep s hall hlen
      rcases hres : s.responses with _ | ⟨r, rest⟩
      · rw [hres] at hlen; simp at hlen
      · have hr : r = true := hall r (by rw [hres]; simp)
        subst hr
        have hde : dispatchEvent budget ep s e =
            (ep, { accepted := s.accepted ++ [e], responses := rest }) := by
          unfold dispatchEvent
          rw [pushWithRetry_of_true budget s e rest hres]
        show List.foldl _ (dispatchEvent budget ep s e) es = _
        rw [hde]
        have hall' : ∀ x ∈ rest, x = true := by
          intro x hx
          exact hall x (by rw [hres]; exact List.mem_cons_of_mem _ hx)
        have hlen' : es.length ≤ rest.length := by
          rw [hres] at hlen; simpa using Nat.le_of_succ_le_succ hlen
        have h2 := ih ep ⟨s.accepted ++ [e], rest⟩ hall' hlen'
        show dispatchEvents budget ep ⟨s.accepted ++ [e], rest⟩ es = _
        rw [h2]
        simp

theorem splitOn_of_not_mem (delim : Nat) (xs : List Nat) (h : delim ∉ xs) :
    xs.splitOn delim = [xs] := by
  show xs.splitOnP (· == delim) = [xs]
  apply List.splitOnP_eq_single
  intro x hx
  simp only [beq_iff_eq]
  exact fun hxd => h (hxd ▸ hx)

theorem parseDatagram_of_splitOn (delim : Nat) (p : String) (d : Datagram)
    (hne : d.payload ≠ []) :
    (parseDatagram delim p d).map Event.payload = d.payload.splitOn delim ∧
    (parseDatagram delim p d).length = (d.payload.splitOn delim).length ∧
    (parseDatagram delim p d).map Event.seqInDatagram =
      List.range (d.payload.splitOn delim).length := by
  unfold parseDatagram
  rw [if_neg hne]
  refine ⟨?_, ?_, ?_⟩
  · rw [List.map_map, List.enum_eq_enumFrom]
    exact List.enumFrom_map_snd 0 (d.payload.splitOn delim)
  · simp
  · rw [List.map_map, List.enum_eq_enumFrom, List.range_eq_range']
    exact List.enumFrom_map_fst 0 (d.payload.splitOn delim)

/-- C1: the read/parse/dispatch path of the datagram endpoint.  First part: a
datagram whose payload uses the multi-record delimiter convention with `k`
segments (`payload = [delim].intercalate segs`, no segment containing the
delimiter) parses into exactly `k` events — whose payloads are the segments in
order and whose sequence positions are `0, …, k-1` — and, when the sink
accepts, pushes exactly those events to the Output Sink in intra-datagram
order.  Second part: a non-empty datagram of size at most the configured
receive-buffer size that carries no multi-record framing yields exactly one
event, which the Output Sink receives. -/
theorem eventEndpoint_datagram_parse_dispatch (delim budget : Nat)
    (ep : Endpoint) :
    (∀ (s : Sink) (d : Datagram) (segs : List (List Nat)),
      segs ≠ [] → (∀ l ∈ segs, delim ∉ l) →
      d.payload = [delim].intercalate segs → d.payload ≠ [] →
      (∀ r ∈ s.responses, r = true) →
      segs.length ≤ s.responses.length →
      (parseDatagram delim ep.path d).length = segs.length ∧
      (parseDatagram delim ep.path d).map Event.payload = segs ∧
      (parseDatagram delim ep.path d).map Event.seqInDatagram =
        List.range segs.length ∧
      processDatagram delim budget ep s d =
        (ep, { accepted := s.accepted ++ parseDatagram delim ep.path d,
               responses := s.responses.drop segs.length })) ∧
    (∀ (s : Sink) (d : Datagram) (bufSize : Nat),
      d.payload ≠ [] → delim ∉ d.payload → d.payload.length ≤ bufSize →
      (∀ r ∈ s.responses, r = true) → 1 ≤ s.responses.length →
      parseDatagram delim ep.path d =
        [⟨d.payload, ep.path, d.arrivalTime, 0, d.truncated⟩] ∧
      processDatagram delim budget ep s d =
        (ep, { accepted := s.accepted ++
                 [⟨d.payload, ep.path, d.arrivalTime, 0, d.truncated⟩],
               responses := s.responses.drop 1 })) := by
  constructor
  · intro s d segs hsegs hnd hpay hne hall hlen
    have hsplit : d.payload.splitOn delim = segs := by
      rw [hpay]; exact List.splitOn_intercalate segs delim hnd hsegs
    obtain ⟨hmap, hlength, hseq⟩ := parseDatagram_of_splitOn delim ep.path d hne
    rw [hsplit] at hmap hlength hseq
    refine ⟨hlength, hmap, hseq, ?_⟩
    have := dispatchEvents_all_true budget (parseDatagram delim ep.path d)
      ep s hall (by rw [hlength]; exact hlen)
    rw [hlength] at this
    exact this
  · intro s d bufSize hne hnd hsize hall hlen
    have hsplit : d.payload.splitOn delim = [d.payload] :=
      splitOn_of_not_mem delim d.payload hnd
    have hparse : parseDatagram delim ep.path d =
        [⟨d.payload, ep.path, d.arrivalTime, 0, d.truncated⟩] := by
      unfold parseDatagram
      rw [if_neg hne, hsplit]
      rfl
    refine ⟨hparse, ?_⟩
    show dispatchEvents budget ep s (parseDatagram delim ep.path d) = _
    rw [hparse]
    have := dispatchEvents_all_true budget
      [⟨d.payload, ep.path, d.arrivalTime, 0, d.truncated⟩] ep s hall
      (by simpa using hlen)
    simpa using this

/-- Witness for C1 at a concrete input: the datagram `[1, 10, 2, 2]` with
delimiter `10` has two segments and yields two events pushed in order; the
framing-free datagram `[7, 8]` on a 1024-byte buffer yields exactly one
event. -/
theorem eventEndpoint_datagram_parse_dispatch_witness :
    (parseDatagram 10 "/a" ⟨[1, 10, 2, 2], 5, false⟩).length = 2 ∧
    processDatagram 10 3 (Endpoint.mkNew "/a" 0) ⟨[], [true, true]⟩
        ⟨[1, 10, 2, 2], 5, false⟩ =
      (Endpoint.mkNew "/a" 0,
        { accepted := parseDatagram 10 "/a" ⟨[1, 10, 2, 2], 5, false⟩,
          responses := [] }) ∧
    parseDatagram 10 "/a" ⟨[7, 8], 6, false⟩ =
      [⟨[7, 8], "/a", 6, 0, false⟩] := by
  have h1 := (eventEndpoint_datagram_parse_dispatch 10 3
    (Endpoint.mkNew "/a" 0)).1 ⟨[], [true, true]⟩ ⟨[1, 10, 2, 2], 5, false⟩
    [[1], [2, 2]] (by decide) (by decide) (by decide) (by decide)
    (by decide) (by decide)
  have h2 := (eventEndpoint_datagram_parse_dispatch 10 3
    (Endpoint.mkNew "/a" 0)).2 ⟨[], [true, true]⟩ ⟨[7, 8], 6, false⟩ 1024
    (by decide) (by decide) (by decide) (by decide) (by decide)
  exact ⟨h1.1, h1.2.2.2, h2.1⟩

theorem timestamp_of_mem_parse (delim : Nat) (p : String) (d : Datagram)
    (e : Event) (h : e ∈ parseDatagram delim p d) :
    e.timestamp = d.arrivalTime := by
  unfold parseDatagram at h
  by_cases hne : d.payload = []
  · rw [if_pos hne] at h; cases h
  · rw [if_neg hne] at h
    obtain ⟨ie, -, rfl⟩ := List.mem_map.1 h
    rfl

theorem processDatagrams_all_true (delim budget : Nat) (ds : List Datagram) :
    ∀ (ep : Endpoint) (s : Sink),
      (∀ r ∈ s.responses, r = true) →
      (ds.flatMap (parseDatagram delim ep.path)).length ≤
        s.responses.length →
      processDatagrams delim budget ep s ds =
        (ep, { accepted := s.accepted ++
                 ds.flatMap (parseDatagram delim ep.path),
               responses := s.responses.drop
                 (ds.flatMap (parseDatagram delim ep.path)).length }) := by
  induction ds with
  | nil => intro ep s _ _; simp [processDatagrams]
  | cons d ds ih =>
      intro ep s hall hlen
      rw [List.flatMap_cons, List.length_append] at hlen
      have hlen1 : (parseDatagram delim ep.path d).length ≤
          s.responses.length := le_trans (Nat.le_add_right _ _) hlen
      have h1 := dispatchEvents_all_true budget
        (parseDatagram delim ep.path d) ep s hall hlen1
      show List.foldl _ (processDatagram delim budget ep s d) ds = _
      have hpd : processDatagram delim budget ep s d =
          (ep, { accepted := s.accepted ++ parseDatagram delim ep.path d,
                 responses := s.responses.drop
                   (parseDatagram delim ep.path d).length }) := h1
      rw [hpd]
      have hall' : ∀ r ∈ (s.responses.drop
          (parseDatagram delim ep.path d).length), r = true :=
        fun r hr => hall r (List.mem_of_mem_drop hr)
      have hlen' : (ds.flatMap (parseDatagram delim ep.path)).length ≤
          (s.responses.drop (parseDatagram delim ep.path d).length).length := by
        rw [List.length_drop]
        omega
      have h2 := ih ep ⟨s.accepted ++ parseDatagram delim ep.path d,
        s.responses.drop (parseDatagram delim ep.path d).length⟩ hall' hlen'
      show processDatagrams delim budget ep
        ⟨s.accepted ++ parseDatagram delim ep.path d,
          s.responses.drop (parseDatagram delim ep.path d).length⟩ ds = _
      rw [h2]
      simp [List.flatMap_cons, List.append_assoc, Nat.add_comm]

/-- C7: for a single endpoint, events are pushed to the Output Sink in the
order their datagrams were read from the socket — the accepted events extend
the sink by the concatenation, in arrival order, of each datagram's parsed
events — and when the datagrams' arrival timestamps are non-decreasing in that
order, the provenance timestamps of the pushed events are monotonically
non-decreasing as well.  (No cross-endpoint ordering is claimed: the statement
quantifies over one endpoint's datagram sequence only.) -/
theorem eventEndpoint_ordering_monotone (delim budget : Nat) (ep : Endpoint)
    (s : Sink) (ds : List Datagram)
    (hall : ∀ r ∈ s.responses, r = true)
    (hlen : (ds.flatMap (parseDatagram delim ep.path)).length ≤
      s.responses.length)
    (hmono : List.Pairwise (· ≤ ·) (ds.map Datagram.arrivalTime)) :
    (processDatagrams delim budget ep s ds).2.accepted =
      s.accepted ++ ds.flatMap (parseDatagram delim ep.path) ∧
    List.Pairwise (· ≤ ·)
      ((ds.flatMap (parseDatagram delim ep.path)).map Event.timestamp) := by
  constructor
  · rw [processDatagrams_all_true delim budget ds ep s hall hlen]
  · rw [List.pairwise_map, List.pairwise_flatMap]
    constructor
    · intro d hd
      apply List.pairwise_of_forall_mem_list
      intro a ha b hb
      rw [timestamp_of_mem_parse delim ep.path d a ha,
        timestamp_of_mem_parse delim ep.path d b hb]
    · have h' := List.pairwise_map.1 hmono
      refine h'.imp ?_
      intro d d' hdd
      intro x hx y hy
      rw [timestamp_of_mem_parse delim ep.path d x hx,
        timestamp_of_mem_parse delim ep.path d' y hy]
      exact hdd

/-- Witness for C7 at a concrete input: two datagrams with arrival times 3 and
then 5 produce accepted events in datagram order with non-decreasing
timestamps. -/
theorem eventEndpoint_ordering_monotone_witness :
    (processDatagrams 10 0 (Endpoint.mkNew "/a" 0) ⟨[], [true, true, true]⟩
        [⟨[1], 3, false⟩, ⟨[2, 10, 4], 5, false⟩]).2.accepted =
      [⟨[1], "/a", 3, 0, false⟩, ⟨[2], "/a", 5, 0, false⟩,
        ⟨[4], "/a", 5, 1, false⟩] ∧
    List.Pairwise (· ≤ ·)
      (([⟨[1], 3, false⟩, ⟨[2, 10, 4], 5, false⟩].flatMap
        (parseDatagram 10 (Endpoint.mkNew "/a" 0).path)).map
          Event.timestamp) := by
  have h := eventEndpoint_ordering_monotone 10 0 (Endpoint.mkNew "/a" 0)
    ⟨[], [true, true, true]⟩ [⟨[1], 3, false⟩, ⟨[2, 10, 4], 5, false⟩]
    (by decide) (by decide) (by decide)
  refine ⟨?_, h.2⟩
  rw [h.1]
  rfl

end EngineServer
